import Mathlib

/-!
Verification of the dataset statistics engine (`isd/dataset/statistics.py`).

The engine loads a tabular survival dataset, resolves which columns hold the
survival time and the event/censoring flag, derives a canonical binary event
indicator, and produces cached statistics: general counts, per-feature
correlation records, and a censoring-stratified event-time histogram.

Shallow embedding conventions:
* A pandas cell is `Cell`: a numeric value (exact rational), a text value
  (an entry whose numeric coercion fails), or a missing value (`NaN`/`None`).
* `pd.to_numeric(errors="coerce")` is `toNumeric` cellwise; numeric strings
  are represented already parsed as `Cell.num`.
* A dataframe is an ordered list of named columns of equal length.
* Square-root-valued statistics (Pearson correlation, sample standard
  deviation) are represented exactly as `sign * sqrt sq` with `sq` rational
  (`SignedSqrt`), so all comparisons stay decidable.
* `np.histogram` is modelled by its documented exact semantics over the
  rationals: equal-width edges from min to max (expanded by one half on each
  side when min = max), half-open bins with the last bin closed; a value's
  bin index is the number of interior edges not exceeding it, which is the
  searchsorted semantics numpy uses.  All inputs the code passes lie inside
  the edge range, so out-of-range exclusion never triggers and is not
  modelled.
* The Cox-fitting capability (`lifelines`) is a third-party dependency that
  may be absent; the embedding takes the documented ImportError path, on
  which both cox fields stay null.
* The persistence and file-storage collaborators are explicit state: the
  statistics row is an `Option DatasetStatisticsRow`, storage maps a path to
  missing / unparseable / a parsed dataframe.
-/

namespace ISD

/-- A cell of a loaded table: a numeric value, a non-numeric text value, or a
missing value (pandas `NaN`). -/
inductive Cell where
  | num (q : ℚ)
  | text (s : String)
  | null
deriving DecidableEq

/-- Cellwise model of `pd.to_numeric(series, errors="coerce")`: numeric cells
keep their value, text and missing cells coerce to `NaN` (`none`). -/
def toNumeric (c : Cell) : Option ℚ :=
  match c with
  | .num q => some q
  | .text _ => none
  | .null => none

/-- A loaded table: an ordered list of named columns, all of length `nrows`. -/
structure DataFrame where
  nrows : Nat
  cols : List (String × List Cell)
  hlen : ∀ c ∈ cols, c.2.length = nrows

/-- The ordered column-name list (`df.columns`). -/
def DataFrame.columns (df : DataFrame) : List String :=
  df.cols.map Prod.fst

/-- The number of columns (`df.shape[1]`). -/
def DataFrame.ncols (df : DataFrame) : Nat :=
  df.cols.length

/-- Model of `df.empty`: true when either axis has length zero. -/
def DataFrame.empty (df : DataFrame) : Bool :=
  decide (df.nrows = 0) || decide (df.cols = [])

/-- Model of `name in df.columns` followed by `df[name]`: the first column
with the given name, if any. -/
def DataFrame.getCol (df : DataFrame) (name : String) : Option (List Cell) :=
  (df.cols.find? (fun c => decide (c.1 = name))).map Prod.snd

/-- A column has numeric dtype when no cell is non-numeric text (an all-null
column loads as a numeric float column in pandas). -/
def numericDtype (col : List Cell) : Bool :=
  col.all (fun c => match c with | .text _ => false | _ => true)

/-! ### Column role resolution (statistics.py lines 179 to 193, 266 to 278) -/

/-- Candidate names for the survival-time column. -/
def timeColumnCandidates : List String :=
  ["time", "Time", "TIME", "duration", "survival_time"]

/-- Candidate names for the event/censoring column. -/
def censorColumnCandidates : List String :=
  ["censored", "Censored", "event", "Event", "status", "Status", "failure"]

/-- Return the first candidate present in the columns while respecting
exclusions (source `_find_column`). -/
def _find_column (df : DataFrame) (candidates : List String)
    (exclude : List String) : Option String :=
  candidates.find? (fun name =>
    decide (name ∉ exclude) && decide (name ∈ df.columns))

/-- The name-matched time column (before the positional fallback). -/
def timeByNameOf (df : DataFrame) : Option String :=
  _find_column df timeColumnCandidates []

/-- The name-matched censor column, excluding the name-matched time column. -/
def censorByNameOf (df : DataFrame) : Option String :=
  _find_column df censorColumnCandidates (timeByNameOf df).toList

/-- The resolved time column: the name match, or positionally the first
column when the frame is non-empty. -/
def resolvedTimeCol (df : DataFrame) : Option String :=
  match timeByNameOf df with
  | some t => some t
  | none => if df.empty then none else df.columns.head?

/-- The resolved event/censoring column: the name match, or positionally the
first column after the first one that differs from the resolved time column,
when more than one column exists. -/
def resolvedCensorCol (df : DataFrame) : Option String :=
  match censorByNameOf df with
  | some c => some c
  | none =>
      if 1 < df.ncols then
        (df.columns.drop 1).find? (fun c => decide (resolvedTimeCol df ≠ some c))
      else none

/-- Resolve the time column and the event/censoring column with fallbacks,
exactly as in `_compute_statistics_from_dataframe` lines 179 to 193. -/
def resolveColumns (df : DataFrame) : Option String × Option String :=
  (resolvedTimeCol df, resolvedCensorCol df)

/-! ### Event indicator derivation (statistics.py lines 292 to 311) -/

/-- Substring test on character lists: does `pat` occur contiguously? -/
def containsSub (pat : List Char) : List Char → Bool
  | [] => pat.isEmpty
  | c :: cs => pat.isPrefixOf (c :: cs) || containsSub pat cs

/-- Model of the Python substring test `"censor" in column_name.lower()`. -/
def containsCensor (column_name : String) : Bool :=
  containsSub "censor".data (column_name.data.map Char.toLower)

/-- Infer an event indicator series (1 = event observed, 0 = censored),
source `_derive_event_indicator`: coerce to numeric, fail when no value is
numeric or when the distinct numeric values are not a subset of {0, 1};
invert when the column name contains a censor substring. -/
def _derive_event_indicator (series : List Cell) (column_name : String) :
    Option (List (Option ℚ)) :=
  if ((series.map toNumeric).filterMap id) = [] then none
  else if ¬ (∀ v ∈ (series.map toNumeric).filterMap id, v = 0 ∨ v = 1) then none
  else if containsCensor column_name then
    some ((series.map toNumeric).map (Option.map (fun v => 1 - v)))
  else some (series.map toNumeric)

/-- Integer truncation of a rational toward zero, the semantics of numpy and
pandas `astype(int)` on finite floats. -/
def truncQ (q : ℚ) : ℤ :=
  q.num / (q.den : ℤ)

/-- Model of `event_indicator.reindex(df.index).fillna(0).astype(int)` on a
derived indicator: the reindex is the identity, missing entries become 0 and
values are truncated to integers. -/
def finalizeIndicator (ind : List (Option ℚ)) : List ℚ :=
  ind.map (fun o => ((truncQ (o.getD 0) : ℤ) : ℚ))

/-! ### General statistics record (statistics.py lines 195 to 245) -/

/-- The flat `general_stats` mapping. -/
structure GeneralStats where
  num_samples : Nat
  num_features : Nat
  num_numeric_features : Nat
  num_censored : Option Nat
  num_events : Option Nat
  time_min : Option ℚ
  time_max : Option ℚ
  time_mean : Option ℚ
  time_median : Option ℚ
  time_unit : String
  total_columns : Nat
deriving DecidableEq

/-- Minimum of a list of rationals with an unreachable default for `[]`. -/
def listMinD (l : List ℚ) : ℚ :=
  match l with
  | [] => 0
  | x :: xs => xs.foldl min x

/-- Maximum of a list of rationals with an unreachable default for `[]`. -/
def listMaxD (l : List ℚ) : ℚ :=
  match l with
  | [] => 0
  | x :: xs => xs.foldl max x

/-- Mean of a list of rationals (`series.mean()` over non-null values). -/
def listMean (l : List ℚ) : ℚ :=
  l.sum / (l.length : ℚ)

/-- Median of a list of rationals, pandas semantics: sort, take the middle
element for odd length, the mean of the two middle elements for even length. -/
def listMedian (l : List ℚ) : ℚ :=
  let s := l.mergeSort (fun a b => decide (a ≤ b))
  let n := s.length
  if n % 2 = 1 then s.getD (n / 2) 0
  else (s.getD (n / 2 - 1) 0 + s.getD (n / 2) 0) / 2

/-! ### Histogram builder (statistics.py lines 281 to 289 and 314 to 347) -/

def MIN_HISTOGRAM_BINS : Nat := 5

def MAX_HISTOGRAM_BINS : Nat := 20

/-- Select the number of histogram bins, source
`_determine_histogram_bin_count`: `int(np.sqrt(n))` is the floor square root,
then clamped below by 5 and above by 20. -/
def _determine_histogram_bin_count (sample_count : Nat) : Nat :=
  if sample_count = 0 then MIN_HISTOGRAM_BINS
  else min MAX_HISTOGRAM_BINS (max MIN_HISTOGRAM_BINS (Nat.sqrt sample_count))

/-- One record of the event-time histogram. -/
structure HistBin where
  bin_start : ℚ
  bin_end : ℚ
  count : ℤ
  events : ℤ
  censored : ℤ
deriving DecidableEq

/-- The `k + 1` equal-width edges `np.histogram` uses over the range
`[lo, hi]` (numpy `linspace`). -/
def histEdges (lo hi : ℚ) (k : Nat) : List ℚ :=
  (List.range (k + 1)).map (fun i : Nat => lo + (hi - lo) * (i : ℚ) / (k : ℚ))

/-- The bin a value falls into: the number of interior edges not exceeding
it.  This is the numpy searchsorted semantics with half-open bins and a
closed last bin, for values inside the edge range. -/
def binIndexOf (edges : List ℚ) (x : ℚ) : Nat :=
  ((edges.drop 1).dropLast).countP (fun e => decide (e ≤ x))

/-- The histogram counts over `k` bins with the given edges. -/
def histCounts (edges : List ℚ) (k : Nat) (xs : List ℚ) : List ℤ :=
  (List.range k).map (fun i => (xs.countP (fun x => decide (binIndexOf edges x = i)) : ℤ))

/-- The valid (time, indicator) pairs: for each row whose time value is
numeric, pair it with that row's indicator value, missing indicator entries
filled with 0 (`event_indicator.reindex(valid_times.index).fillna(0)`). -/
def validTimePairs (tn : List (Option ℚ)) (event_indicator : List ℚ) :
    List (ℚ × ℚ) :=
  tn.enum.filterMap (fun p => p.2.map (fun t => (t, event_indicator.getD p.1 0)))

/-- The lower edge of the histogram range: the minimum of the valid times,
pushed down by one half when all valid times are equal (numpy semantics). -/
def histLo (xs : List ℚ) : ℚ :=
  if listMinD xs = listMaxD xs then listMinD xs - 1/2 else listMinD xs

/-- The upper edge of the histogram range. -/
def histHi (xs : List ℚ) : ℚ :=
  if listMinD xs = listMaxD xs then listMaxD xs + 1/2 else listMaxD xs

/-- The bin count the builder uses for a given list of valid pairs. -/
def binCountOf (pairs : List (ℚ × ℚ)) : Nat :=
  _determine_histogram_bin_count (pairs.map Prod.fst).length

/-- The edges the builder uses. -/
def edgesOf (pairs : List (ℚ × ℚ)) : List ℚ :=
  histEdges (histLo (pairs.map Prod.fst)) (histHi (pairs.map Prod.fst))
    (binCountOf pairs)

/-- Per-bin totals over all valid times. -/
def totalCountsOf (pairs : List (ℚ × ℚ)) : List ℤ :=
  histCounts (edgesOf pairs) (binCountOf pairs) (pairs.map Prod.fst)

/-- Per-bin totals over the valid times whose indicator is 1, histogrammed
against the same edges. -/
def eventCountsOf (pairs : List (ℚ × ℚ)) : List ℤ :=
  histCounts (edgesOf pairs) (binCountOf pairs)
    ((pairs.filter (fun p => decide (p.2 = 1))).map Prod.fst)

/-- The bin records for a non-empty list of valid (time, indicator) pairs:
censored counts come from elementwise subtraction. -/
def buildBins (pairs : List (ℚ × ℚ)) : List HistBin :=
  (List.range (binCountOf pairs)).map (fun i =>
    { bin_start := (edgesOf pairs).getD i 0
      bin_end := (edgesOf pairs).getD (i + 1) 0
      count := (totalCountsOf pairs).getD i 0
      events := (eventCountsOf pairs).getD i 0
      censored := (totalCountsOf pairs).getD i 0 - (eventCountsOf pairs).getD i 0 })

/-- Build the censoring-stratified event-time histogram, source
`_build_event_time_histogram`: empty when there is no time column or no valid
time value; otherwise equal-width bins from min to max (the range expanded by
one half on each side when min = max, as numpy does), total counts over all
valid times, event counts by re-histogramming the subset with indicator 1
against the same edges, censored counts by subtraction.  The source wraps
the numpy calls in a try/except; on the exact rationals the computation is
total, so no exceptional branch exists in the model. -/
def _build_event_time_histogram (time_numeric : Option (List (Option ℚ)))
    (event_indicator : List ℚ) : List HistBin :=
  match time_numeric with
  | none => []
  | some tn =>
    if validTimePairs tn event_indicator = [] then []
    else buildBins (validTimePairs tn event_indicator)

/-! ### Feature statistics (statistics.py lines 350 to 458) -/

/-- Exact representation of a square-root-valued statistic: the real number
`sign * sqrt sq`. -/
structure SignedSqrt where
  sign : ℤ
  sq : ℚ
deriving DecidableEq

/-- The sign of a rational as an integer in {-1, 0, 1}. -/
def qSign (q : ℚ) : ℤ :=
  if 0 < q then 1 else if q < 0 then -1 else 0

/-- Absolute value on the square-root representation. -/
def absSS (s : SignedSqrt) : SignedSqrt :=
  ⟨|s.sign|, s.sq⟩

/-- One record of `feature_correlations`.  The two cox fields stay null on
the modelled ImportError path (the optional Cox capability is absent). -/
structure FeatureRecord where
  feature : String
  feature_type : String
  non_null_percent : Option ℚ
  correlation_with_time : Option SignedSqrt
  abs_correlation : Option SignedSqrt
  mean : Option ℚ
  std_dev : Option SignedSqrt
  cox_score : Option ℚ
  cox_score_log : Option ℚ
deriving DecidableEq

/-- Model of `series.nunique() > 1`: the list holds two distinct values. -/
def hasTwoDistinct (l : List ℚ) : Bool :=
  match l with
  | [] => false
  | x :: xs => xs.any (fun y => decide (y ≠ x))

/-- Pearson correlation of paired samples, exactly: `sxy / sqrt (sxx * syy)`
as a `SignedSqrt`, or `none` when the denominator vanishes (the float
computation yields `NaN` there, rejected by the source's `pd.notna` check). -/
def pearsonCorr (pairs : List (ℚ × ℚ)) : Option SignedSqrt :=
  let n : ℚ := (pairs.length : ℚ)
  let xs := pairs.map Prod.fst
  let ys := pairs.map Prod.snd
  let mx := xs.sum / n
  let my := ys.sum / n
  let sxx := (xs.map (fun x => (x - mx) ^ 2)).sum
  let syy := (ys.map (fun y => (y - my) ^ 2)).sum
  let sxy := (pairs.map (fun p => (p.1 - mx) * (p.2 - my))).sum
  if sxx * syy = 0 then none
  else some ⟨qSign sxy, sxy ^ 2 / (sxx * syy)⟩

/-- The per-feature record built by the loop body of
`_compute_feature_statistics`: descriptive statistics, and the Pearson
correlation between the feature and time weighted by the event indicator
(rows where either side is missing are dropped first). -/
def featureRecordFor (df : DataFrame) (event_indicator : List ℚ)
    (time_numeric : Option (List (Option ℚ))) (feature : String) :
    FeatureRecord :=
  let series := (df.getCol feature).getD []
  let is_numeric := numericDtype series
  let total_rows := df.nrows
  let non_null_count := series.countP (fun c => decide (c ≠ .null))
  let non_null_percent : Option ℚ :=
    if total_rows = 0 then none
    else some ((non_null_count : ℚ) / (total_rows : ℚ) * 100)
  let vals := series.filterMap toNumeric
  let mean_value : Option ℚ :=
    if is_numeric && decide (0 < non_null_count) then some (listMean vals)
    else none
  let std_value : Option SignedSqrt :=
    if is_numeric && decide (1 < non_null_count) then
      some ⟨1, (vals.map (fun x => (x - listMean vals) ^ 2)).sum / ((vals.length : ℚ) - 1)⟩
    else none
  let corr : Option SignedSqrt :=
    match time_numeric with
    | none => none
    | some tn =>
      if is_numeric then
        let corrPairs := (List.range total_rows).filterMap (fun i =>
          match (tn.getD i none).map (fun t => t * event_indicator.getD i 0),
                toNumeric (series.getD i .null) with
          | some t, some f => some (t, f)
          | _, _ => none)
        if decide (2 ≤ corrPairs.length)
            && hasTwoDistinct (corrPairs.map Prod.snd)
            && hasTwoDistinct (corrPairs.map Prod.fst) then
          pearsonCorr corrPairs
        else none
      else none
  { feature := feature
    feature_type := if is_numeric then "numeric" else "categorical"
    non_null_percent := non_null_percent
    correlation_with_time := corr
    abs_correlation := corr.map absSS
    mean := mean_value
    std_dev := std_value
    cox_score := none
    cox_score_log := none }

/-- The unsorted record list, one record per feature column in original
column order (`results` before the final sort).  The indicator is first cast
with `astype(int)` as in the source. -/
def _feature_records (df : DataFrame) (feature_columns : List String)
    (event_indicator : List ℚ) (time_numeric : Option (List (Option ℚ))) :
    List FeatureRecord :=
  let ind := event_indicator.map (fun q => ((truncQ q : ℤ) : ℚ))
  feature_columns.map (featureRecordFor df ind time_numeric)

/-- The comparison the final sort uses.  The source sorts ascending and
stably by the key pair (abs_correlation is null, negated abs_correlation or
0): records with a correlation come first, stronger first; null records
compare equal among themselves.  Since the stored absolute correlations are
the nonnegative reals `sqrt sq`, comparing their negations is comparing the
`sq` components the other way around. -/
def featureRecLE (a b : FeatureRecord) : Bool :=
  match a.abs_correlation, b.abs_correlation with
  | none, none => true
  | none, some _ => false
  | some _, none => true
  | some x, some y => decide (y.sq ≤ x.sq)

/-- Source `_compute_feature_statistics`: empty when there are no feature
columns or no time column; otherwise the per-feature records, stably sorted
by descending absolute correlation with nulls last.  Python's stable sort is
modelled by `List.mergeSort`, which is stable and sorts by the same total
preorder. -/
def _compute_feature_statistics (df : DataFrame) (feature_columns : List String)
    (time_col : Option String) (event_indicator : List ℚ)
    (time_numeric : Option (List (Option ℚ))) : List FeatureRecord :=
  match time_col with
  | none => []
  | some t =>
    if feature_columns.isEmpty || (df.getCol t).isNone then []
    else (_feature_records df feature_columns event_indicator time_numeric).mergeSort featureRecLE

/-! ### Assembling the analysis (statistics.py lines 168 to 263) -/

/-- The feature columns: every column after the first two. -/
def featureColumnsOf (df : DataFrame) : List String :=
  if 2 ≤ df.ncols then df.columns.drop 2 else []

/-- Model of `df[feature_columns].select_dtypes(include=[np.number]).shape[1]`
with the source's emptiness guard: a sub-frame with zero rows or zero
selected columns is empty and reports 0. -/
def numNumericFeatures (df : DataFrame) (feature_columns : List String) : Nat :=
  let sel := feature_columns.filter (fun name =>
    match df.getCol name with
    | some col => numericDtype col
    | none => false)
  if df.nrows = 0 ∨ sel = [] then 0 else sel.length

/-- The numeric-coerced time column, `none` when no time column was resolved
(the source also treats an empty-string column name as falsy). -/
def timeNumericOf (df : DataFrame) : Option (List (Option ℚ)) :=
  match (resolveColumns df).1 with
  | none => none
  | some t =>
      if t = "" then none
      else (df.getCol t).map (fun col => col.map toNumeric)

/-- The derived event indicator from the resolved censor column, `none` when
no censor column was resolved or derivation failed. -/
def derivedIndicatorOf (df : DataFrame) : Option (List (Option ℚ)) :=
  match (resolveColumns df).2 with
  | none => none
  | some c =>
      if c = "" then none
      else
        match df.getCol c with
        | none => none
        | some col => _derive_event_indicator col c

/-- The indicator the engine works with afterwards: the finalized derived
indicator, or all ones when derivation failed. -/
def eventIndicatorOf (df : DataFrame) : List ℚ :=
  match derivedIndicatorOf df with
  | some ind => finalizeIndicator ind
  | none => List.replicate df.nrows 1

/-- The three computed fields of a statistics row. -/
structure Analysis where
  general_stats : GeneralStats
  feature_correlations : List FeatureRecord
  event_time_histogram : List HistBin

/-- The `general_stats` mapping of `_compute_statistics_from_dataframe`:
counts and column totals always, time statistics when valid time values
exist, event and censored counts only when the indicator was derivable. -/
def timeSeriesOf (df : DataFrame) : List ℚ :=
  ((timeNumericOf df).getD []).filterMap id

/-- The initial `general_stats` mapping before any update: counts and column
totals filled, every other statistic null. -/
def baseGeneralStats (df : DataFrame) (time_unit : String) : GeneralStats :=
  { num_samples := df.nrows
    num_features := (featureColumnsOf df).length
    num_numeric_features := numNumericFeatures df (featureColumnsOf df)
    num_censored := none
    num_events := none
    time_min := none
    time_max := none
    time_mean := none
    time_median := none
    time_unit := time_unit
    total_columns := df.ncols }

/-- The general statistics after the time-statistics update. -/
def timeUpdatedGeneralStats (df : DataFrame) (time_unit : String) : GeneralStats :=
  if (timeSeriesOf df).isEmpty then baseGeneralStats df time_unit
  else
    { baseGeneralStats df time_unit with
        time_min := some (listMinD (timeSeriesOf df))
        time_max := some (listMaxD (timeSeriesOf df))
        time_mean := some (listMean (timeSeriesOf df))
        time_median := some (listMedian (timeSeriesOf df)) }

def generalStatsOf (df : DataFrame) (time_unit : String) : GeneralStats :=
  match derivedIndicatorOf df with
  | some ind =>
      { timeUpdatedGeneralStats df time_unit with
          num_events :=
            some ((finalizeIndicator ind).countP (fun x => decide (x = 1)))
          num_censored :=
            some ((finalizeIndicator ind).countP (fun x => decide (x = 0))) }
  | none => timeUpdatedGeneralStats df time_unit

/-- Source `_compute_statistics_from_dataframe`: resolve columns, fill the
general statistics, then compute feature correlations and the histogram from
the resolved time column and the (derived or all-ones) event indicator. -/
def _compute_statistics_from_dataframe (df : DataFrame) (time_unit : String) :
    Analysis :=
  { general_stats := generalStatsOf df time_unit
    feature_correlations :=
      _compute_feature_statistics df (featureColumnsOf df) (resolveColumns df).1
        (eventIndicatorOf df) (timeNumericOf df)
    event_time_histogram :=
      _build_event_time_histogram (timeNumericOf df) (eventIndicatorOf df) }

/-! ### Orchestrator (statistics.py lines 22 to 126 and 133 to 165) -/

def DATASET_STATS_SCHEMA_VERSION : String := "v2"

/-- The dataset descriptor this core consumes. -/
structure Dataset where
  dataset_id : Nat
  file_path : Option String
  time_unit : String

/-- The persisted statistics row. -/
structure DatasetStatisticsRow where
  general_stats : GeneralStats
  feature_correlations : List FeatureRecord
  event_time_histogram : List HistBin
  schema_version : String
deriving DecidableEq

/-- The file storage collaborator: a path maps to `none` when the file is
missing, `some none` when reading it raises (unparseable or empty file), and
`some (some df)` when it parses to a dataframe. -/
def Storage : Type :=
  String → Option (Option DataFrame)

/-- Source `_read_dataset_into_dataframe`: `none` when no path is set (an
empty-string path is falsy in Python), the file is missing, or reading
raises; the parsed dataframe otherwise. -/
def _read_dataset_into_dataframe (storage : Storage) (dataset : Dataset) :
    Option DataFrame :=
  match dataset.file_path with
  | none => none
  | some p =>
      if p = "" then none
      else
        match storage p with
        | none => none
        | some parsed => parsed

/-- The dataframe with no rows and no columns (`pd.DataFrame()`). -/
def emptyDataFrame : DataFrame :=
  ⟨0, [], by intro c hc; cases hc⟩

/-- The all-null general statistics stored for a dataset with no data
(statistics.py lines 94 to 106). -/
def emptyGeneralStats (time_unit : String) : GeneralStats :=
  { num_samples := 0
    num_features := 0
    num_numeric_features := 0
    num_censored := none
    num_events := none
    time_min := none
    time_max := none
    time_mean := none
    time_median := none
    time_unit := time_unit
    total_columns := 0 }

/-- The value returned to callers: the row and the dataframe used. -/
structure DatasetStatisticsResult where
  stats : DatasetStatisticsRow
  dataframe : Option DataFrame

/-- Source `calculate_and_store_dataset_statistics`: load (or take the given)
dataframe, fall back to empty statistics when there is none or it is empty,
and upsert the row (the second component is the stored row after the call). -/
def calculate_and_store_dataset_statistics (storage : Storage)
    (dataset : Dataset) ( _dbRow : Option DatasetStatisticsRow)
    (dataframe : Option DataFrame) :
    DatasetStatisticsResult × Option DatasetStatisticsRow :=
  let df :=
    match dataframe with
    | some d => some d
    | none => _read_dataset_into_dataframe storage dataset
  let row : DatasetStatisticsRow :=
    match df with
    | none =>
        ⟨emptyGeneralStats dataset.time_unit, [], [], DATASET_STATS_SCHEMA_VERSION⟩
    | some d =>
        if d.empty then
          ⟨emptyGeneralStats dataset.time_unit, [], [], DATASET_STATS_SCHEMA_VERSION⟩
        else
          let a := _compute_statistics_from_dataframe d dataset.time_unit
          ⟨a.general_stats, a.feature_correlations, a.event_time_histogram,
            DATASET_STATS_SCHEMA_VERSION⟩
  (⟨row, some (df.getD emptyDataFrame)⟩, some row)

/-- Source `ensure_dataset_statistics`: return the cached row untouched when
one exists, recomputation was not forced and its schema version is current;
recompute and store otherwise. -/
def ensure_dataset_statistics (storage : Storage) (dataset : Dataset)
    (dbRow : Option DatasetStatisticsRow) (force_recalculate : Bool)
    (dataframe : Option DataFrame) (include_dataframe : Bool) :
    DatasetStatisticsResult × Option DatasetStatisticsRow :=
  match dbRow with
  | some existing =>
      if !force_recalculate
          && decide (existing.schema_version = DATASET_STATS_SCHEMA_VERSION) then
        let df :=
          match dataframe with
          | some d => some d
          | none =>
              if include_dataframe then _read_dataset_into_dataframe storage dataset
              else none
        (⟨existing, df⟩, dbRow)
      else calculate_and_store_dataset_statistics storage dataset dbRow dataframe
  | none => calculate_and_store_dataset_statistics storage dataset dbRow dataframe

/-! ### Basic lemmas -/

theorem getCol_length {df : DataFrame} {name : String} {col : List Cell}
    (h : df.getCol name = some col) : col.length = df.nrows := by
  unfold DataFrame.getCol at h
  cases hf : df.cols.find? (fun c => decide (c.1 = name)) with
  | none => rw [hf] at h; cases h
  | some pr =>
      rw [hf] at h
      have hmem : pr ∈ df.cols := List.mem_of_find?_eq_some hf
      have := df.hlen pr hmem
      simp only [Option.map_some', Option.some.injEq] at h
      rw [← h]
      exact this

theorem truncQ_zero : truncQ 0 = 0 := by
  simp [truncQ]

theorem truncQ_one : truncQ 1 = 1 := by
  simp [truncQ]

/-- A successful derivation certifies that all numeric values of the column
are 0 or 1, and returns the coerced column, inverted or not. -/
theorem derive_shape {series : List Cell} {name : String} {ind : List (Option ℚ)}
    (h : _derive_event_indicator series name = some ind) :
    (∀ v ∈ (series.map toNumeric).filterMap id, v = 0 ∨ v = 1) ∧
    (ind = series.map toNumeric ∨
      ind = (series.map toNumeric).map (Option.map (fun v => 1 - v))) := by
  unfold _derive_event_indicator at h
  by_cases h1 : (series.map toNumeric).filterMap id = []
  · rw [if_pos h1] at h; cases h
  · rw [if_neg h1] at h
    by_cases h2 : ∀ v ∈ (series.map toNumeric).filterMap id, v = 0 ∨ v = 1
    · rw [if_neg (not_not_intro h2)] at h
      refine ⟨h2, ?_⟩
      by_cases h3 : containsCensor name = true
      · rw [if_pos h3] at h
        right
        exact (Option.some.injEq _ _).mp h.symm
      · rw [if_neg h3] at h
        left
        exact (Option.some.injEq _ _).mp h.symm
    · rw [if_pos h2] at h; cases h

/-- On a censor-named binary column, derivation succeeds and inverts. -/
theorem derive_of_censor_name {series : List Cell} {name : String}
    (hvalid : (series.map toNumeric).filterMap id ≠ [])
    (hsub : ∀ v ∈ (series.map toNumeric).filterMap id, v = 0 ∨ v = 1)
    (hcen : containsCensor name = true) :
    _derive_event_indicator series name
      = some ((series.map toNumeric).map (Option.map (fun v => 1 - v))) := by
  unfold _derive_event_indicator
  rw [if_neg hvalid, if_neg (not_not_intro hsub), if_pos hcen]

/-- Derivation failure: no numeric value, or a numeric value outside {0,1}. -/
theorem derive_fails {series : List Cell} {name : String}
    (h : (series.map toNumeric).filterMap id = [] ∨
      ∃ v ∈ (series.map toNumeric).filterMap id, ¬(v = 0 ∨ v = 1)) :
    _derive_event_indicator series name = none := by
  unfold _derive_event_indicator
  rcases h with h | ⟨v, hv, hne⟩
  · rw [if_pos h]
  · have hnil : ¬((series.map toNumeric).filterMap id = []) := by
      intro hnil
      exact List.not_mem_nil v (hnil ▸ hv)
    have hall : ¬ ∀ w ∈ (series.map toNumeric).filterMap id, w = 0 ∨ w = 1 :=
      fun hall => hne (hall v hv)
    rw [if_neg hnil, if_pos hall]

/-- The finalized indicator of a successful derivation has one 0/1 entry per
row of the column. -/
theorem finalize_zero_one {series : List Cell} {name : String}
    {ind : List (Option ℚ)} (h : _derive_event_indicator series name = some ind) :
    (finalizeIndicator ind).length = series.length ∧
    ∀ x ∈ finalizeIndicator ind, x = 0 ∨ x = 1 := by
  obtain ⟨hsub, hshape⟩ := derive_shape h
  have hentry : ∀ o ∈ ind, o.getD 0 = 0 ∨ o.getD 0 = 1 := by
    intro o ho
    rcases hshape with rfl | rfl
    · rcases List.mem_map.mp ho with ⟨cell, _, rfl⟩
      cases hc : toNumeric cell with
      | none => simp [hc]
      | some v =>
          have hv : v ∈ (series.map toNumeric).filterMap id := by
            rw [List.mem_filterMap]
            exact ⟨some v, by rw [← hc]; exact ho, rfl⟩
          simpa [hc] using hsub v hv
    · rcases List.mem_map.mp ho with ⟨o2, ho2, rfl⟩
      rcases List.mem_map.mp ho2 with ⟨cell, _, rfl⟩
      cases hc : toNumeric cell with
      | none => simp [hc]
      | some v =>
          have hv : v ∈ (series.map toNumeric).filterMap id := by
            rw [List.mem_filterMap]
            exact ⟨some v, by rw [← hc]; exact ho2, rfl⟩
          rcases hsub v hv with rfl | rfl
          · right; simp [hc]
          · left; simp [hc]
  constructor
  · have hlen : ind.length = series.length := by
      rcases hshape with rfl | rfl <;> simp
    simpa [finalizeIndicator] using hlen
  · intro x hx
    rcases List.mem_map.mp hx with ⟨o, ho, rfl⟩
    rcases hentry o ho with h0 | h1
    · left; rw [h0, truncQ_zero]; norm_num
    · right; rw [h1, truncQ_one]; norm_num

/-- Counting the ones and the zeros of a 0/1 list exhausts it. -/
theorem countP_zero_one {l : List ℚ} (h : ∀ x ∈ l, x = 0 ∨ x = 1) :
    l.countP (fun x => decide (x = 1)) + l.countP (fun x => decide (x = 0))
      = l.length := by
  induction l with
  | nil => simp
  | cons a t ih =>
      have ht := ih (fun x hx => h x (List.mem_cons_of_mem a hx))
      rcases h a (List.mem_cons_self a t) with rfl | rfl
      · simp only [List.countP_cons, List.length_cons]
        norm_num
        omega
      · simp only [List.countP_cons, List.length_cons]
        norm_num
        omega

/-- Unpacking a successful pipeline derivation into its components. -/
theorem derivedIndicator_elim {df : DataFrame} {ind : List (Option ℚ)}
    (h : derivedIndicatorOf df = some ind) :
    ∃ c col, (resolveColumns df).2 = some c ∧ c ≠ "" ∧ df.getCol c = some col ∧
      _derive_event_indicator col c = some ind := by
  unfold derivedIndicatorOf at h
  cases hc : (resolveColumns df).2 with
  | none => rw [hc] at h; cases h
  | some c =>
      rw [hc] at h
      simp only [] at h
      by_cases hne : c = ""
      · rw [if_pos hne] at h; cases h
      · rw [if_neg hne] at h
        cases hcol : df.getCol c with
        | none => rw [hcol] at h; cases h
        | some col =>
            rw [hcol] at h
            exact ⟨c, col, rfl, hne, hcol, h⟩

theorem timeUpdatedGeneralStats_num_samples (df : DataFrame) (tu : String) :
    (timeUpdatedGeneralStats df tu).num_samples = df.nrows := by
  unfold timeUpdatedGeneralStats
  split <;> rfl

theorem generalStatsOf_num_samples (df : DataFrame) (tu : String) :
    (generalStatsOf df tu).num_samples = df.nrows := by
  unfold generalStatsOf
  split <;> simpa using timeUpdatedGeneralStats_num_samples df tu

theorem generalStatsOf_num_events (df : DataFrame) (tu : String) :
    (generalStatsOf df tu).num_events
      = (derivedIndicatorOf df).map
          (fun ind => (finalizeIndicator ind).countP (fun x => decide (x = 1))) := by
  unfold generalStatsOf
  split
  next ind heq => rw [heq, Option.map_some']
  next heq =>
      rw [heq, Option.map_none']
      unfold timeUpdatedGeneralStats
      split <;> rfl

theorem generalStatsOf_num_censored (df : DataFrame) (tu : String) :
    (generalStatsOf df tu).num_censored
      = (derivedIndicatorOf df).map
          (fun ind => (finalizeIndicator ind).countP (fun x => decide (x = 0))) := by
  unfold generalStatsOf
  split
  next ind heq => rw [heq, Option.map_some']
  next heq =>
      rw [heq, Option.map_none']
      unfold timeUpdatedGeneralStats
      split <;> rfl

theorem length_filterMap_eq_countP {α β : Type} (f : α → Option β) (l : List α) :
    (l.filterMap f).length = l.countP (fun a => (f a).isSome) := by
  induction l with
  | nil => rfl
  | cons a t ih =>
      cases hfa : f a with
      | none => simp [List.filterMap_cons, hfa, List.countP_cons, ih]
      | some b => simp [List.filterMap_cons, hfa, List.countP_cons, ih]

theorem countP_enumFrom {α : Type} (p : α → Bool) (l : List α) (n : Nat) :
    (List.enumFrom n l).countP (fun x => p x.2) = l.countP p := by
  induction l generalizing n with
  | nil => rfl
  | cons a t ih => simp [List.enumFrom, List.countP_cons, ih]

theorem countP_enum {α : Type} (p : α → Bool) (l : List α) :
    l.enum.countP (fun x => p x.2) = l.countP p :=
  countP_enumFrom p l 0

/-- The valid pairs are in bijection with the non-null time entries. -/
theorem validTimePairs_length (tn : List (Option ℚ)) (ind : List ℚ) :
    (validTimePairs tn ind).length = tn.countP (fun o => o.isSome) := by
  unfold validTimePairs
  rw [length_filterMap_eq_countP]
  rw [show (fun p : Nat × Option ℚ =>
      (p.2.map (fun t => (t, ind.getD p.1 0))).isSome)
    = (fun p : Nat × Option ℚ => p.2.isSome) from by
      funext p; cases p.2 <;> rfl]
  exact countP_enum _ tn

/-- The bin-count heuristic never returns fewer than the minimum of 5. -/
theorem binCount_ge_min (n : Nat) :
    MIN_HISTOGRAM_BINS ≤ _determine_histogram_bin_count n := by
  unfold _determine_histogram_bin_count MIN_HISTOGRAM_BINS MAX_HISTOGRAM_BINS
  split
  · exact le_refl _
  · omega

theorem binCount_pos (n : Nat) : 0 < _determine_histogram_bin_count n :=
  lt_of_lt_of_le (by norm_num [MIN_HISTOGRAM_BINS]) (binCount_ge_min n)

theorem histEdges_length (lo hi : ℚ) (k : Nat) :
    (histEdges lo hi k).length = k + 1 := by
  unfold histEdges
  rw [List.length_map, List.length_range]

/-- Every value is assigned a bin index below the bin count. -/
theorem binIndexOf_lt (lo hi : ℚ) (k : Nat) (hk : 0 < k) (x : ℚ) :
    binIndexOf (histEdges lo hi k) x < k := by
  unfold binIndexOf
  have h1 : (((histEdges lo hi k).drop 1).dropLast).length = k - 1 := by
    simp [histEdges_length]
  calc (((histEdges lo hi k).drop 1).dropLast).countP (fun e => decide (e ≤ x))
      ≤ (((histEdges lo hi k).drop 1).dropLast).length := List.countP_le_length _
    _ = k - 1 := h1
    _ < k := by omega

theorem sum_map_ite_eq_countP (l : List Nat) (m : Nat) :
    (l.map (fun i => if m = i then 1 else 0)).sum = l.countP (fun i => decide (m = i)) := by
  induction l with
  | nil => rfl
  | cons a t ih =>
      by_cases hm : m = a
      · subst hm
        simp only [List.map_cons, List.sum_cons, List.countP_cons, ih]
        simp only [if_pos rfl, decide_eq_true_eq]
        omega
      · simp only [List.map_cons, List.sum_cons, List.countP_cons, ih,
          if_neg hm]
        simp [hm]

theorem countP_eq_range (k m : Nat) (h : m < k) :
    (List.range k).countP (fun i => decide (m = i)) = 1 := by
  induction k with
  | zero => omega
  | succ k ih =>
      rw [List.range_succ, List.countP_append]
      by_cases hm : m = k
      · have hz : (List.range k).countP (fun i => decide (m = i)) = 0 := by
          rw [List.countP_eq_zero]
          intro i hi
          have h2 : i < k := List.mem_range.mp hi
          simp only [decide_eq_true_eq]
          omega
        rw [hz, hm]
        simp
      · have h1 := ih (by omega)
        rw [h1]
        have hz2 : ([k] : List Nat).countP (fun i => decide (m = i)) = 0 := by
          simp [hm]
        rw [hz2]

/-- Classifying a list by a bounded index and summing the class sizes gives
the length back. -/
theorem sum_countP_classes (xs : List ℚ) (f : ℚ → Nat) (k : Nat)
    (h : ∀ x ∈ xs, f x < k) :
    ((List.range k).map (fun i => xs.countP (fun x => decide (f x = i)))).sum
      = xs.length := by
  induction xs with
  | nil => simp
  | cons a t ih =>
      have ha : f a < k := h a (List.mem_cons_self a t)
      have ht := ih (fun x hx => h x (List.mem_cons_of_mem a hx))
      have hsplit : (fun i => (a :: t).countP (fun x => decide (f x = i)))
          = (fun i => t.countP (fun x => decide (f x = i))
              + if f a = i then 1 else 0) := by
        funext i
        rw [List.countP_cons]
        by_cases hfa : f a = i <;> simp [hfa]
      rw [hsplit]
      rw [List.sum_map_add, ht, sum_map_ite_eq_countP, countP_eq_range k (f a) ha]
      simp [List.length_cons]

theorem getD_map_range {β : Type} (f : Nat → β) (n i : Nat) (d : β) (h : i < n) :
    ((List.range n).map f).getD i d = f i := by
  rw [List.getD_eq_getElem?_getD, List.getElem?_map, List.getElem?_range h]
  rfl

theorem histCounts_getD (edges : List ℚ) (k : Nat) (xs : List ℚ) (i : Nat)
    (h : i < k) :
    (histCounts edges k xs).getD i 0
      = ((xs.countP (fun x => decide (binIndexOf edges x = i)) : ℕ) : ℤ) := by
  unfold histCounts
  exact getD_map_range _ _ _ _ h

/-- Per-bin conservation is built in: censored counts are the elementwise
difference of total and event counts. -/
theorem buildBins_conservation (pairs : List (ℚ × ℚ)) :
    ∀ b ∈ buildBins pairs, b.events + b.censored = b.count := by
  intro b hb
  unfold buildBins at hb
  rcases List.mem_map.mp hb with ⟨i, _, rfl⟩
  simp only []
  ring

/-- The total counts over all bins sum to the number of valid pairs. -/
theorem buildBins_count_sum (pairs : List (ℚ × ℚ)) :
    ((buildBins pairs).map HistBin.count).sum = (pairs.length : ℤ) := by
  unfold buildBins
  rw [List.map_map]
  have hbound : ∀ x ∈ pairs.map Prod.fst,
      binIndexOf (edgesOf pairs) x < binCountOf pairs := by
    intro x _
    unfold edgesOf
    exact binIndexOf_lt _ _ _ (binCount_pos _) x
  have hcong : ∀ i ∈ List.range (binCountOf pairs),
      (HistBin.count ∘ fun i => HistBin.mk ((edgesOf pairs).getD i 0)
          ((edgesOf pairs).getD (i + 1) 0) ((totalCountsOf pairs).getD i 0)
          ((eventCountsOf pairs).getD i 0)
          ((totalCountsOf pairs).getD i 0 - (eventCountsOf pairs).getD i 0)) i
        = (((pairs.map Prod.fst).countP
            (fun x => decide (binIndexOf (edgesOf pairs) x = i)) : ℕ) : ℤ) := by
    intro i hi
    have h2 := histCounts_getD (edgesOf pairs) (binCountOf pairs)
      (pairs.map Prod.fst) i (List.mem_range.mp hi)
    unfold totalCountsOf
    exact h2
  rw [List.map_congr_left hcong]
  rw [show (List.range (binCountOf pairs)).map
        (fun i => (((pairs.map Prod.fst).countP
          (fun x => decide (binIndexOf (edgesOf pairs) x = i)) : ℕ) : ℤ))
      = ((List.range (binCountOf pairs)).map
          (fun i => (pairs.map Prod.fst).countP
            (fun x => decide (binIndexOf (edgesOf pairs) x = i)))).map
          (fun n : ℕ => (n : ℤ)) from by rw [List.map_map]; rfl]
  rw [← Nat.cast_list_sum]
  rw [sum_countP_classes (pairs.map Prod.fst)
    (fun x => binIndexOf (edgesOf pairs) x) (binCountOf pairs) hbound]
  rw [List.length_map]

theorem foldl_min_le (xs : List ℚ) (a : ℚ) : xs.foldl min a ≤ a := by
  induction xs generalizing a with
  | nil => exact le_refl a
  | cons x t ih =>
      calc t.foldl min (min a x) ≤ min a x := ih (min a x)
        _ ≤ a := min_le_left a x

theorem le_foldl_max (xs : List ℚ) (a : ℚ) : a ≤ xs.foldl max a := by
  induction xs generalizing a with
  | nil => exact le_refl a
  | cons x t ih =>
      calc a ≤ max a x := le_max_left a x
        _ ≤ t.foldl max (max a x) := ih (max a x)

theorem listMinD_le_listMaxD {l : List ℚ} (h : l ≠ []) :
    listMinD l ≤ listMaxD l := by
  cases l with
  | nil => exact absurd rfl h
  | cons x xs =>
      calc listMinD (x :: xs) = xs.foldl min x := rfl
        _ ≤ x := foldl_min_le xs x
        _ ≤ xs.foldl max x := le_foldl_max xs x
        _ = listMaxD (x :: xs) := rfl

theorem histLo_lt_histHi {xs : List ℚ} (h : xs ≠ []) : histLo xs < histHi xs := by
  unfold histLo histHi
  by_cases he : listMinD xs = listMaxD xs
  · rw [if_pos he, if_pos he, he]
    linarith
  · rw [if_neg he, if_neg he]
    exact lt_of_le_of_ne (listMinD_le_listMaxD h) he

/-- The bin starts grow strictly along the histogram. -/
theorem buildBins_pairwise (pairs : List (ℚ × ℚ)) (hp : pairs ≠ []) :
    List.Pairwise (fun a b : HistBin => a.bin_start < b.bin_start)
      (buildBins pairs) := by
  have hmap : pairs.map Prod.fst ≠ [] := by
    intro hnil
    exact hp (List.map_eq_nil_iff.mp hnil)
  have hlh := histLo_lt_histHi hmap
  unfold buildBins
  rw [List.pairwise_map]
  rw [List.pairwise_iff_getElem]
  intro i j hi hj hij
  rw [List.length_range] at hi hj
  rw [List.getElem_range, List.getElem_range]
  show (edgesOf pairs).getD i 0 < (edgesOf pairs).getD j 0
  unfold edgesOf histEdges
  rw [getD_map_range _ _ _ _ (by omega), getD_map_range _ _ _ _ (by omega)]
  have hkq : (0:ℚ) < ((binCountOf pairs : ℕ) : ℚ) := by
    exact_mod_cast binCount_pos _
  have hd : (0:ℚ) < histHi (pairs.map Prod.fst) - histLo (pairs.map Prod.fst) := by
    linarith
  have hij2 : ((i : ℕ) : ℚ) < ((j : ℕ) : ℚ) := by exact_mod_cast hij
  have h1 : (histHi (pairs.map Prod.fst) - histLo (pairs.map Prod.fst)) * (i : ℚ)
      < (histHi (pairs.map Prod.fst) - histLo (pairs.map Prod.fst)) * (j : ℚ) :=
    mul_lt_mul_of_pos_left hij2 hd
  have h2 := div_lt_div_of_pos_right h1 hkq
  linarith

/-- When some valid pair exists, the histogram is the bin list. -/
theorem build_hist_of_pairs (tn : List (Option ℚ)) (ind : List ℚ)
    (hp : validTimePairs tn ind ≠ []) :
    _build_event_time_histogram (some tn) ind
      = buildBins (validTimePairs tn ind) := by
  show (if validTimePairs tn ind = [] then []
    else buildBins (validTimePairs tn ind)) = buildBins (validTimePairs tn ind)
  rw [if_neg hp]

/-- When some valid pair exists, the histogram is non-empty. -/
theorem build_hist_ne_nil (tn : List (Option ℚ)) (ind : List ℚ)
    (hp : validTimePairs tn ind ≠ []) :
    _build_event_time_histogram (some tn) ind ≠ [] := by
  rw [build_hist_of_pairs tn ind hp]
  intro hnil
  have hlen := congrArg List.length hnil
  unfold buildBins at hlen
  rw [List.length_map, List.length_range, List.length_nil] at hlen
  have h2 := binCount_pos ((validTimePairs tn ind).map Prod.fst).length
  unfold binCountOf at hlen
  omega

/-- The number of bins produced for a non-empty histogram. -/
theorem build_hist_length (tn : List (Option ℚ)) (ind : List ℚ)
    (hp : validTimePairs tn ind ≠ []) :
    (_build_event_time_histogram (some tn) ind).length
      = _determine_histogram_bin_count (tn.countP (fun o => o.isSome)) := by
  rw [build_hist_of_pairs tn ind hp]
  unfold buildBins
  rw [List.length_map, List.length_range]
  unfold binCountOf
  rw [List.length_map, validTimePairs_length]

/-- Composing the pipeline facts back into a successful derivation. -/
theorem derivedIndicator_intro {df : DataFrame} {c : String} {col : List Cell}
    {ind : List (Option ℚ)}
    (hc : (resolveColumns df).2 = some c) (hne : c ≠ "")
    (hcol : df.getCol c = some col)
    (hder : _derive_event_indicator col c = some ind) :
    derivedIndicatorOf df = some ind := by
  simp [derivedIndicatorOf, hc, hne, hcol, hder]

/-! ### Claim C1: count conservation for the stored general statistics -/

/-- C1: whenever the event indicator is derivable from the resolved
event/censoring column, the stored general statistics carry event and
censored counts summing to the sample count; whenever it is not derivable
(including when no event column was resolved) both counts are null. -/
theorem general_stats_count_conservation (df : DataFrame) (tu : String) :
    (∀ ind, derivedIndicatorOf df = some ind →
      ∃ e c, (_compute_statistics_from_dataframe df tu).general_stats.num_events = some e ∧
        (_compute_statistics_from_dataframe df tu).general_stats.num_censored = some c ∧
        e + c = (_compute_statistics_from_dataframe df tu).general_stats.num_samples) ∧
    (derivedIndicatorOf df = none →
      (_compute_statistics_from_dataframe df tu).general_stats.num_events = none ∧
      (_compute_statistics_from_dataframe df tu).general_stats.num_censored = none) := by
  have hgs : (_compute_statistics_from_dataframe df tu).general_stats
      = generalStatsOf df tu := rfl
  rw [hgs]
  constructor
  · intro ind hind
    obtain ⟨c, col, hc, hne, hcol, hder⟩ := derivedIndicator_elim hind
    obtain ⟨hlen, hzo⟩ := finalize_zero_one hder
    refine ⟨(finalizeIndicator ind).countP (fun x => decide (x = 1)),
            (finalizeIndicator ind).countP (fun x => decide (x = 0)), ?_, ?_, ?_⟩
    · rw [generalStatsOf_num_events, hind, Option.map_some']
    · rw [generalStatsOf_num_censored, hind, Option.map_some']
    · rw [generalStatsOf_num_samples]
      calc (finalizeIndicator ind).countP (fun x => decide (x = 1))
            + (finalizeIndicator ind).countP (fun x => decide (x = 0))
          = (finalizeIndicator ind).length := countP_zero_one hzo
        _ = col.length := hlen
        _ = df.nrows := getCol_length hcol
  · intro hind
    constructor
    · rw [generalStatsOf_num_events, hind, Option.map_none']
    · rw [generalStatsOf_num_censored, hind, Option.map_none']

/-! ### Claim C10: missing event entries are filled as censored, not dropped -/

/-- C10: when the indicator is derivable, a row whose event-column entry is
missing or non-numeric gets indicator 0 after the fill step, the stored
censored count counts exactly the 0 entries of the filled indicator, and the
event and censored counts still partition the sample count. -/
theorem missing_event_entries_filled_censored (df : DataFrame) (tu : String)
    (c : String) (col : List Cell) (ind : List (Option ℚ))
    (hc : (resolveColumns df).2 = some c) (hne : c ≠ "")
    (hcol : df.getCol c = some col)
    (hder : _derive_event_indicator col c = some ind) :
    (∀ i (hi : i < col.length) (hf : i < (finalizeIndicator ind).length),
      toNumeric (col.get ⟨i, hi⟩) = none →
      (finalizeIndicator ind).get ⟨i, hf⟩ = 0) ∧
    (_compute_statistics_from_dataframe df tu).general_stats.num_censored
      = some ((finalizeIndicator ind).countP (fun x => decide (x = 0))) ∧
    (finalizeIndicator ind).countP (fun x => decide (x = 1))
      + (finalizeIndicator ind).countP (fun x => decide (x = 0))
      = (_compute_statistics_from_dataframe df tu).general_stats.num_samples := by
  have hind := derivedIndicator_intro hc hne hcol hder
  have hgs : (_compute_statistics_from_dataframe df tu).general_stats
      = generalStatsOf df tu := rfl
  obtain ⟨hsub, hshape⟩ := derive_shape hder
  obtain ⟨hlen, hzo⟩ := finalize_zero_one hder
  refine ⟨?_, ?_, ?_⟩
  · intro i hi hf hnone
    have hii : i < ind.length := by
      have : (finalizeIndicator ind).length = ind.length := by
        simp [finalizeIndicator]
      omega
    have hind_i : ind.get ⟨i, hii⟩ = none := by
      rcases hshape with rfl | rfl
      · simp only [List.get_eq_getElem, List.getElem_map]
        rw [List.get_eq_getElem] at hnone
        simp [hnone]
      · simp only [List.get_eq_getElem, List.getElem_map]
        rw [List.get_eq_getElem] at hnone
        simp [hnone]
    simp only [finalizeIndicator, List.get_eq_getElem, List.getElem_map]
    rw [List.get_eq_getElem] at hind_i
    rw [hind_i]
    simp [truncQ_zero]
  · rw [hgs, generalStatsOf_num_censored, hind, Option.map_some']
  · rw [hgs, generalStatsOf_num_samples]
    calc (finalizeIndicator ind).countP (fun x => decide (x = 1))
          + (finalizeIndicator ind).countP (fun x => decide (x = 0))
        = (finalizeIndicator ind).length := countP_zero_one hzo
      _ = col.length := hlen
      _ = df.nrows := getCol_length hcol

/-! ### Claim C4: semantic inversion for censor-named columns -/

theorem finalizeIndicator_cons (o : Option ℚ) (l : List (Option ℚ)) :
    finalizeIndicator (o :: l)
      = ((truncQ (o.getD 0) : ℤ) : ℚ) :: finalizeIndicator l := rfl

/-- Counting events on the finalized inverted indicator counts the zeros of
the stored column. -/
theorem countP_finalize_inverted {col : List Cell}
    (hsub : ∀ cell ∈ col, ∀ v, toNumeric cell = some v → v = 0 ∨ v = 1) :
    (finalizeIndicator ((col.map toNumeric).map (Option.map (fun v => 1 - v)))).countP
        (fun x => decide (x = 1))
      = col.countP (fun cell => decide (toNumeric cell = some 0)) := by
  induction col with
  | nil => rfl
  | cons cell t ih =>
      have hsubt := fun x hx => hsub x (List.mem_cons_of_mem cell hx)
      cases hcell : toNumeric cell with
      | none =>
          simp only [List.map_cons, hcell, Option.map_none', finalizeIndicator_cons,
            Option.getD_none, truncQ_zero, List.countP_cons]
          rw [ih hsubt]
          simp
      | some v =>
          rcases hsub cell (List.mem_cons_self cell t) v hcell with rfl | rfl
          · simp only [List.map_cons, hcell, Option.map_some', finalizeIndicator_cons,
              Option.getD_some, List.countP_cons]
            rw [ih hsubt]
            norm_num [truncQ_one, truncQ_zero]
          · simp only [List.map_cons, hcell, Option.map_some', finalizeIndicator_cons,
              Option.getD_some, List.countP_cons]
            rw [ih hsubt]
            norm_num [truncQ_one, truncQ_zero]

/-- C4: for a resolved event/censoring column whose name contains a censor
substring and whose numeric values all lie in {0, 1}, the stored event count
is the number of rows where the column holds 0. -/
theorem censor_column_event_count_inverted (df : DataFrame) (tu : String)
    (c : String) (col : List Cell)
    (hc : (resolveColumns df).2 = some c) (hne : c ≠ "")
    (hcol : df.getCol c = some col)
    (hcen : containsCensor c = true)
    (hvalid : (col.map toNumeric).filterMap id ≠ [])
    (hsub : ∀ v ∈ (col.map toNumeric).filterMap id, v = 0 ∨ v = 1) :
    (_compute_statistics_from_dataframe df tu).general_stats.num_events
      = some (col.countP (fun cell => decide (toNumeric cell = some 0))) := by
  have hder := derive_of_censor_name hvalid hsub hcen
  have hind := derivedIndicator_intro hc hne hcol hder
  have hgs : (_compute_statistics_from_dataframe df tu).general_stats
      = generalStatsOf df tu := rfl
  have hsub2 : ∀ cell ∈ col, ∀ v, toNumeric cell = some v → v = 0 ∨ v = 1 := by
    intro cl hcl v hv
    apply hsub
    exact List.mem_filterMap.mpr
      ⟨some v, by rw [← hv]; exact List.mem_map_of_mem toNumeric hcl, rfl⟩
  rw [hgs, generalStatsOf_num_events, hind, Option.map_some']
  rw [countP_finalize_inverted hsub2]

/-! ### Claim C5: failed derivation defaults to an all-events indicator -/

/-- C5: when the resolved event/censoring column has no numeric value or a
numeric value outside {0, 1}, derivation fails; the engine keeps both counts
null while feeding an all-ones indicator to the correlation and histogram
computations. -/
theorem derivation_failure_all_events_default (df : DataFrame) (tu : String)
    (c : String) (col : List Cell)
    (hc : (resolveColumns df).2 = some c) (hne : c ≠ "")
    (hcol : df.getCol c = some col)
    (hfail : (col.map toNumeric).filterMap id = [] ∨
      ∃ v ∈ (col.map toNumeric).filterMap id, ¬(v = 0 ∨ v = 1)) :
    _derive_event_indicator col c = none ∧
    (_compute_statistics_from_dataframe df tu).general_stats.num_events = none ∧
    (_compute_statistics_from_dataframe df tu).general_stats.num_censored = none ∧
    (_compute_statistics_from_dataframe df tu).event_time_histogram
      = _build_event_time_histogram (timeNumericOf df) (List.replicate df.nrows 1) ∧
    (_compute_statistics_from_dataframe df tu).feature_correlations
      = _compute_feature_statistics df (featureColumnsOf df) (resolveColumns df).1
          (List.replicate df.nrows 1) (timeNumericOf df) := by
  have hder := @derive_fails col c hfail
  have hind : derivedIndicatorOf df = none := by
    simp [derivedIndicatorOf, hc, hne, hcol, hder]
  have hgs : (_compute_statistics_from_dataframe df tu).general_stats
      = generalStatsOf df tu := rfl
  have hev : eventIndicatorOf df = List.replicate df.nrows 1 := by
    simp [eventIndicatorOf, hind]
  refine ⟨hder, ?_, ?_, ?_, ?_⟩
  · rw [hgs, generalStatsOf_num_events, hind, Option.map_none']
  · rw [hgs, generalStatsOf_num_censored, hind, Option.map_none']
  · show _build_event_time_histogram (timeNumericOf df) (eventIndicatorOf df) = _
    rw [hev]
  · show _compute_feature_statistics df (featureColumnsOf df) (resolveColumns df).1
        (eventIndicatorOf df) (timeNumericOf df) = _
    rw [hev]

/-- A two-row table with an `event` column holding 1 and 0. -/
def dfEventBinary : DataFrame :=
  ⟨2, [("time", [.num 5, .num 7]), ("event", [.num 1, .num 0])], by decide⟩

/-- Witness for C1: on `dfEventBinary` the indicator derives and the counts
partition the sample count. -/
theorem general_stats_count_conservation_witness :
    derivedIndicatorOf dfEventBinary = some [some 1, some 0] ∧
    ∃ e c, (_compute_statistics_from_dataframe dfEventBinary "day").general_stats.num_events
        = some e ∧
      (_compute_statistics_from_dataframe dfEventBinary "day").general_stats.num_censored
        = some c ∧
      e + c = (_compute_statistics_from_dataframe dfEventBinary "day").general_stats.num_samples :=
  ⟨by decide,
   (general_stats_count_conservation dfEventBinary "day").1 [some 1, some 0] (by decide)⟩

/-- A three-row table whose `event` column has a missing middle entry. -/
def dfEventWithNull : DataFrame :=
  ⟨3, [("time", [.num 5, .num 7, .num 9]),
       ("event", [.num 1, .null, .num 0])], by decide⟩

/-- Witness for C10: on `dfEventWithNull` the null event entry is filled as
censored and the counts still partition the sample count. -/
theorem missing_event_entries_filled_censored_witness :
    (resolveColumns dfEventWithNull).2 = some "event" ∧
    ("event" : String) ≠ "" ∧
    dfEventWithNull.getCol "event" = some [.num 1, .null, .num 0] ∧
    _derive_event_indicator [.num 1, .null, .num 0] "event"
      = some [some 1, none, some 0] ∧
    ((∀ i (hi : i < ([Cell.num 1, Cell.null, Cell.num 0] : List Cell).length)
        (hf : i < (finalizeIndicator [some 1, none, some 0]).length),
       toNumeric (([Cell.num 1, Cell.null, Cell.num 0] : List Cell).get ⟨i, hi⟩) = none →
       (finalizeIndicator [some 1, none, some 0]).get ⟨i, hf⟩ = 0) ∧
     (_compute_statistics_from_dataframe dfEventWithNull "day").general_stats.num_censored
       = some ((finalizeIndicator [some 1, none, some 0]).countP (fun x => decide (x = 0))) ∧
     (finalizeIndicator [some 1, none, some 0]).countP (fun x => decide (x = 1))
       + (finalizeIndicator [some 1, none, some 0]).countP (fun x => decide (x = 0))
       = (_compute_statistics_from_dataframe dfEventWithNull "day").general_stats.num_samples) :=
  ⟨by decide, by decide, by decide, by decide,
   missing_event_entries_filled_censored dfEventWithNull "day" "event"
     [.num 1, .null, .num 0] [some 1, none, some 0]
     (by decide) (by decide) (by decide) (by decide)⟩

/-- A two-row table with a `censored` column holding 1 and 0. -/
def dfCensoredBinary : DataFrame :=
  ⟨2, [("time", [.num 5, .num 7]), ("censored", [.num 1, .num 0])], by decide⟩

/-- Witness for C4: on `dfCensoredBinary` the event count is the number of
rows whose censored column holds 0. -/
theorem censor_column_event_count_inverted_witness :
    (resolveColumns dfCensoredBinary).2 = some "censored" ∧
    ("censored" : String) ≠ "" ∧
    dfCensoredBinary.getCol "censored" = some [.num 1, .num 0] ∧
    containsCensor "censored" = true ∧
    (([Cell.num 1, Cell.num 0] : List Cell).map toNumeric).filterMap id ≠ [] ∧
    (∀ v ∈ (([Cell.num 1, Cell.num 0] : List Cell).map toNumeric).filterMap id,
      v = 0 ∨ v = 1) ∧
    (_compute_statistics_from_dataframe dfCensoredBinary "day").general_stats.num_events
      = some (([Cell.num 1, Cell.num 0] : List Cell).countP
          (fun cell => decide (toNumeric cell = some 0))) :=
  ⟨by decide, by decide, by decide, by decide, by decide, by decide,
   censor_column_event_count_inverted dfCensoredBinary "day" "censored"
     [.num 1, .num 0] (by decide) (by decide) (by decide) (by decide) (by decide)
     (by decide)⟩

/-- A one-row table whose `event` column holds the non-binary value 2. -/
def dfEventNonBinary : DataFrame :=
  ⟨1, [("time", [.num 5]), ("event", [.num 2])], by decide⟩

/-- Witness for C5: on `dfEventNonBinary` derivation fails and the engine
defaults to the all-ones indicator with null counts. -/
theorem derivation_failure_all_events_default_witness :
    (resolveColumns dfEventNonBinary).2 = some "event" ∧
    ("event" : String) ≠ "" ∧
    dfEventNonBinary.getCol "event" = some [.num 2] ∧
    ((([Cell.num 2] : List Cell).map toNumeric).filterMap id = [] ∨
      ∃ v ∈ (([Cell.num 2] : List Cell).map toNumeric).filterMap id, ¬(v = 0 ∨ v = 1)) ∧
    (_derive_event_indicator [.num 2] "event" = none ∧
     (_compute_statistics_from_dataframe dfEventNonBinary "day").general_stats.num_events
       = none ∧
     (_compute_statistics_from_dataframe dfEventNonBinary "day").general_stats.num_censored
       = none ∧
     (_compute_statistics_from_dataframe dfEventNonBinary "day").event_time_histogram
       = _build_event_time_histogram (timeNumericOf dfEventNonBinary)
           (List.replicate dfEventNonBinary.nrows 1) ∧
     (_compute_statistics_from_dataframe dfEventNonBinary "day").feature_correlations
       = _compute_feature_statistics dfEventNonBinary (featureColumnsOf dfEventNonBinary)
           (resolveColumns dfEventNonBinary).1
           (List.replicate dfEventNonBinary.nrows 1) (timeNumericOf dfEventNonBinary)) :=
  ⟨by decide, by decide, by decide, by decide,
   derivation_failure_all_events_default dfEventNonBinary "day" "event" [.num 2]
     (by decide) (by decide) (by decide) (by decide)⟩

/-! ### Claim C2: histogram conservation and ordering -/

/-- C2: every non-empty event-time histogram satisfies, per bin, events plus
censored equals count; the counts over all bins sum to the number of valid
(non-null, numeric-coercible) time values; and the bins are listed in
strictly increasing bin-start order. -/
theorem event_time_histogram_conservation (tn : List (Option ℚ)) (ind : List ℚ)
    (h : _build_event_time_histogram (some tn) ind ≠ []) :
    (∀ b ∈ _build_event_time_histogram (some tn) ind,
      b.events + b.censored = b.count) ∧
    ((_build_event_time_histogram (some tn) ind).map HistBin.count).sum
      = ((tn.countP (fun o => o.isSome) : ℕ) : ℤ) ∧
    List.Pairwise (fun a b : HistBin => a.bin_start < b.bin_start)
      (_build_event_time_histogram (some tn) ind) := by
  have hp : validTimePairs tn ind ≠ [] := by
    intro hnil
    apply h
    show (if validTimePairs tn ind = [] then []
      else buildBins (validTimePairs tn ind)) = []
    rw [if_pos hnil]
  rw [build_hist_of_pairs tn ind hp]
  refine ⟨buildBins_conservation _, ?_, buildBins_pairwise _ hp⟩
  rw [buildBins_count_sum]
  exact_mod_cast congrArg (fun n : ℕ => (n : ℤ)) (validTimePairs_length tn ind)

/-- Witness for C2: three valid times with a mixed indicator. -/
theorem event_time_histogram_conservation_witness :
    _build_event_time_histogram (some [some 1, some 2, some 4]) [1, 0, 1] ≠ [] ∧
    ((∀ b ∈ _build_event_time_histogram (some [some 1, some 2, some 4]) [1, 0, 1],
        b.events + b.censored = b.count) ∧
     ((_build_event_time_histogram (some [some 1, some 2, some 4]) [1, 0, 1]).map
        HistBin.count).sum
       = ((([some 1, some 2, some 4] : List (Option ℚ)).countP
            (fun o => o.isSome) : ℕ) : ℤ) ∧
     List.Pairwise (fun a b : HistBin => a.bin_start < b.bin_start)
       (_build_event_time_histogram (some [some 1, some 2, some 4]) [1, 0, 1])) :=
  ⟨build_hist_ne_nil [some 1, some 2, some 4] [1, 0, 1] (by decide),
   event_time_histogram_conservation [some 1, some 2, some 4] [1, 0, 1]
     (build_hist_ne_nil [some 1, some 2, some 4] [1, 0, 1] (by decide))⟩

/-! ### Claim C3 (corrected): the bin count uses the floor square root -/

/-- Modelled from the spec's words for comparison (refinement check only):
the square root of `n` rounded to the NEAREST integer, as the spec's
`round(sqrt(n))` prescribes.  For a natural `n` the fractional part of
`sqrt n` is never exactly one half, so rounding up happens exactly when
`n` reaches `(sqrt n)^2 + sqrt n + 1`. -/
def specRoundSqrt (n : Nat) : Nat :=
  if Nat.sqrt n * Nat.sqrt n + Nat.sqrt n + 1 ≤ n then Nat.sqrt n + 1
  else Nat.sqrt n

/-- Modelled from the spec's words for comparison (refinement check only):
`clamp(round(sqrt(n)), 5, 20)`. -/
def specClaimBinCount (n : Nat) : Nat :=
  min MAX_HISTOGRAM_BINS (max MIN_HISTOGRAM_BINS (specRoundSqrt n))

/-- Counterexample to C3 as stated: on a table with 31 valid time values the
code produces `clamp(floor(sqrt 31), 5, 20) = 5` bins, while the claimed
formula `clamp(round(sqrt 31), 5, 20)` gives 6, since `sqrt 31 = 5.567...`
truncates to 5 but rounds to 6. -/
theorem histogram_bin_count_round_counterexample :
    (_build_event_time_histogram (some (List.replicate 31 (some (0:ℚ))))
        (List.replicate 31 (1:ℚ))).length
      ≠ specClaimBinCount ((List.replicate 31 (some (0:ℚ))).countP
          (fun o => o.isSome)) := by
  have hcount : (List.replicate 31 (some (0:ℚ))).countP (fun o => o.isSome)
      = 31 := by decide
  rw [build_hist_length _ _ (by decide), hcount]
  have hs : Nat.sqrt 31 = 5 := (Nat.eq_sqrt.mpr (by norm_num)).symm
  unfold _determine_histogram_bin_count specClaimBinCount specRoundSqrt
    MIN_HISTOGRAM_BINS MAX_HISTOGRAM_BINS
  rw [if_neg (by norm_num), hs]
  norm_num

/-- C3 (amended): for every non-empty set of valid time values of size `n`,
the number of histogram bins is `clamp(floor(sqrt n), 5, 20)` — the source
computes `int(np.sqrt(n))`, which truncates rather than rounds to nearest. -/
theorem histogram_bin_count_floor_sqrt_clamped (tn : List (Option ℚ))
    (ind : List ℚ) (h : _build_event_time_histogram (some tn) ind ≠ []) :
    (_build_event_time_histogram (some tn) ind).length
      = min MAX_HISTOGRAM_BINS (max MIN_HISTOGRAM_BINS
          (Nat.sqrt (tn.countP (fun o => o.isSome)))) := by
  have hp : validTimePairs tn ind ≠ [] := by
    intro hnil
    apply h
    show (if validTimePairs tn ind = [] then []
      else buildBins (validTimePairs tn ind)) = []
    rw [if_pos hnil]
  rw [build_hist_length tn ind hp]
  unfold _determine_histogram_bin_count
  split
  next hz => rw [hz]; decide
  next => rfl

/-- Witness for the amended C3: 31 equal valid times produce 5 bins. -/
theorem histogram_bin_count_floor_sqrt_clamped_witness :
    _build_event_time_histogram (some (List.replicate 31 (some (0:ℚ))))
        (List.replicate 31 (1:ℚ)) ≠ [] ∧
    (_build_event_time_histogram (some (List.replicate 31 (some (0:ℚ))))
        (List.replicate 31 (1:ℚ))).length
      = min MAX_HISTOGRAM_BINS (max MIN_HISTOGRAM_BINS
          (Nat.sqrt ((List.replicate 31 (some (0:ℚ))).countP
            (fun o => o.isSome)))) :=
  ⟨build_hist_ne_nil _ _ (by decide),
   histogram_bin_count_floor_sqrt_clamped (List.replicate 31 (some (0:ℚ)))
     (List.replicate 31 (1:ℚ)) (build_hist_ne_nil _ _ (by decide))⟩

/-! ### Claim C9 (corrected): the resolved columns can coincide -/

/-- A one-row table whose first column is named `event`. -/
def dfEventFirst : DataFrame :=
  ⟨1, [("event", [.num 1]), ("x", [.num 2])], by decide⟩

/-- Counterexample to C9 as stated: on a non-empty table with columns
`event, x`, no time-candidate name matches, so the time column falls back to
the first column `event`; but `event` was already name-matched as the
event/censoring column (the exclusion set is built before the time fallback
runs).  Both roles resolve to the same column. -/
theorem resolve_columns_coincide_counterexample :
    (resolveColumns dfEventFirst).1 = some "event" ∧
    (resolveColumns dfEventFirst).2 = some "event" := by
  constructor <;> rfl

/-- Part (a) of the amended C9: a name-matched time column never coincides
with the resolved event/censoring column. -/
theorem censor_ne_time_of_name_matched {df : DataFrame} {t c : String}
    (ht : timeByNameOf df = some t) (hc : resolvedCensorCol df = some c) :
    c ≠ t := by
  unfold resolvedCensorCol at hc
  cases hby : censorByNameOf df with
  | some c2 =>
      rw [hby] at hc
      have hprop := List.find?_some (show List.find? (fun name =>
          decide (name ∉ (timeByNameOf df).toList)
            && decide (name ∈ df.columns)) censorColumnCandidates = some c2 from hby)
      cases hc
      rw [ht] at hprop
      simp only [Bool.and_eq_true, decide_eq_true_eq] at hprop
      intro heq
      exact hprop.1 (by rw [heq]; simp [Option.toList])
  | none =>
      rw [hby] at hc
      by_cases hn : 1 < df.ncols
      · rw [if_pos hn] at hc
        have hprop := List.find?_some hc
        simp only [decide_eq_true_eq] at hprop
        intro heq
        apply hprop
        unfold resolvedTimeCol
        rw [ht, heq]
      · rw [if_neg hn] at hc
        cases hc

/-- C9 (amended): the name match for the event column excludes only the
NAME-matched time column, so (a) whenever the time column is matched by
candidate name the resolved event column differs from it; (b) the two can
coincide only when the time column is the positional first-column fallback
and that first column's name itself matches an event-candidate name; (c) the
positional event fallback yields nothing when fewer than two columns exist;
and (d) when it fires it picks a column at index at least 1 that differs
from the resolved time column. -/
theorem resolve_columns_distinct_amended (df : DataFrame) :
    (∀ t c, timeByNameOf df = some t → (resolveColumns df).2 = some c → c ≠ t) ∧
    (∀ c, (resolveColumns df).1 = some c → (resolveColumns df).2 = some c →
      timeByNameOf df = none ∧ df.columns.head? = some c ∧
      censorByNameOf df = some c) ∧
    (censorByNameOf df = none → df.ncols ≤ 1 →
      (resolveColumns df).2 = none) ∧
    (∀ c, censorByNameOf df = none → (resolveColumns df).2 = some c →
      1 < df.ncols ∧ c ∈ df.columns.drop 1 ∧ (resolveColumns df).1 ≠ some c) := by
  refine ⟨?_, ?_, ?_, ?_⟩
  · intro t c ht hc
    exact censor_ne_time_of_name_matched ht hc
  · intro c h1 h2
    cases hby : timeByNameOf df with
    | some t =>
        exfalso
        have htc : resolvedTimeCol df = some t := by
          unfold resolvedTimeCol
          rw [hby]
        have hct : c = t := by
          have h3 : some c = some t := h1.symm.trans htc
          exact (Option.some.injEq c t).mp h3
        exact censor_ne_time_of_name_matched hby h2 hct
    | none =>
        refine ⟨rfl, ?_, ?_⟩
        · have h1b : resolvedTimeCol df = some c := h1
          unfold resolvedTimeCol at h1b
          rw [hby] at h1b
          by_cases hemp : df.empty = true
          · rw [if_pos hemp] at h1b; cases h1b
          · rw [if_neg hemp] at h1b; exact h1b
        · cases hcb : censorByNameOf df with
          | some c2 =>
              have h2b : resolvedCensorCol df = some c := h2
              unfold resolvedCensorCol at h2b
              rw [hcb] at h2b
              cases h2b
              rfl
          | none =>
              exfalso
              have h2b : resolvedCensorCol df = some c := h2
              unfold resolvedCensorCol at h2b
              rw [hcb] at h2b
              by_cases hn : 1 < df.ncols
              · rw [if_pos hn] at h2b
                have hprop := List.find?_some h2b
                simp only [decide_eq_true_eq] at hprop
                exact hprop (show resolvedTimeCol df = some c from h1)
              · rw [if_neg hn] at h2b
                cases h2b
  · intro hby hn
    show resolvedCensorCol df = none
    unfold resolvedCensorCol
    rw [hby, if_neg (by omega)]
  · intro c hby hc
    have hcb : resolvedCensorCol df = some c := hc
    unfold resolvedCensorCol at hcb
    rw [hby] at hcb
    by_cases hn : 1 < df.ncols
    · rw [if_pos hn] at hcb
      have hmem := List.mem_of_find?_eq_some hcb
      have hprop := List.find?_some hcb
      simp only [decide_eq_true_eq] at hprop
      exact ⟨hn, hmem, hprop⟩
    · rw [if_neg hn] at hcb
      cases hcb

/-- Witness for the amended C9, at the counterexample table: the coincidence
happens exactly through the fallback-time and name-matched-event path. -/
theorem resolve_columns_distinct_amended_witness :
    ((resolveColumns dfEventFirst).1 = some "event" ∧
     (resolveColumns dfEventFirst).2 = some "event") ∧
    (timeByNameOf dfEventFirst = none ∧
     dfEventFirst.columns.head? = some "event" ∧
     censorByNameOf dfEventFirst = some "event") :=
  ⟨⟨rfl, rfl⟩,
   (resolve_columns_distinct_amended dfEventFirst).2.1 "event" rfl rfl⟩

/-! ### Claim C6: feature correlations are stably sorted, nulls last -/

theorem featureRecLE_trans : ∀ a b c : FeatureRecord,
    featureRecLE a b = true → featureRecLE b c = true →
    featureRecLE a c = true := by
  intro a b c hab hbc
  unfold featureRecLE at *
  cases ha : a.abs_correlation <;> cases hb : b.abs_correlation <;>
    cases hc : c.abs_correlation <;>
    rw [ha, hb] at hab <;> rw [hb, hc] at hbc <;> simp_all
  exact le_trans hbc hab

theorem featureRecLE_total : ∀ a b : FeatureRecord,
    (featureRecLE a b || featureRecLE b a) = true := by
  intro a b
  unfold featureRecLE
  cases ha : a.abs_correlation <;> cases hb : b.abs_correlation <;> simp_all
  exact le_total _ _

/-- C6: the computed feature-correlation list is pairwise ordered by the
sort key — descending absolute correlation, null-correlation records last —
and the sort is stable: the null-correlation records appear exactly as in
the unsorted per-column record list, that is, in original column order. -/
theorem feature_correlations_sorted (df : DataFrame) (fcols : List String)
    (t : String) (ind : List ℚ) (tn : Option (List (Option ℚ)))
    (hne : fcols ≠ []) (hcol : df.getCol t ≠ none) :
    List.Pairwise (fun a b => featureRecLE a b = true)
      (_compute_feature_statistics df fcols (some t) ind tn) ∧
    (_compute_feature_statistics df fcols (some t) ind tn).filter
        (fun r => r.abs_correlation.isNone)
      = (_feature_records df fcols ind tn).filter
          (fun r => r.abs_correlation.isNone) := by
  have hguard : (fcols.isEmpty || (df.getCol t).isNone) = false := by
    cases hg : df.getCol t with
    | none => exact absurd hg hcol
    | some col =>
        cases fcols with
        | nil => exact absurd rfl hne
        | cons a l => rfl
  have hcf : _compute_feature_statistics df fcols (some t) ind tn
      = (_feature_records df fcols ind tn).mergeSort featureRecLE := by
    show (if fcols.isEmpty || (df.getCol t).isNone then []
      else (_feature_records df fcols ind tn).mergeSort featureRecLE) = _
    rw [hguard]
    rfl
  rw [hcf]
  constructor
  · exact List.sorted_mergeSort featureRecLE_trans featureRecLE_total _
  · have hpw : List.Pairwise (fun a b => featureRecLE a b = true)
        ((_feature_records df fcols ind tn).filter
          (fun r => r.abs_correlation.isNone)) := by
      apply List.pairwise_of_forall_mem_list
      intro a ha b hb
      have hana : a.abs_correlation = none := by
        have := List.of_mem_filter ha
        simpa [Option.isNone_iff_eq_none] using this
      have hbna : b.abs_correlation = none := by
        have := List.of_mem_filter hb
        simpa [Option.isNone_iff_eq_none] using this
      unfold featureRecLE
      rw [hana, hbna]
    have hsub : ((_feature_records df fcols ind tn).filter
          (fun r => r.abs_correlation.isNone)).Sublist
        ((_feature_records df fcols ind tn).mergeSort featureRecLE) :=
      List.sublist_mergeSort featureRecLE_trans featureRecLE_total hpw
        (List.filter_sublist _)
    have hsub2 := List.Sublist.filter (fun r => r.abs_correlation.isNone) hsub
    rw [List.filter_filter] at hsub2
    have hsub3 : ((_feature_records df fcols ind tn).filter
          (fun r => r.abs_correlation.isNone)).Sublist
        (((_feature_records df fcols ind tn).mergeSort featureRecLE).filter
          (fun r => r.abs_correlation.isNone)) := by
      have heq : (fun r : FeatureRecord =>
          r.abs_correlation.isNone && r.abs_correlation.isNone)
          = (fun r : FeatureRecord => r.abs_correlation.isNone) := by
        funext r
        rw [Bool.and_self]
      rw [heq] at hsub2
      exact hsub2
    have hlen : ((_feature_records df fcols ind tn).filter
          (fun r => r.abs_correlation.isNone)).length
        = (((_feature_records df fcols ind tn).mergeSort featureRecLE).filter
          (fun r => r.abs_correlation.isNone)).length := by
      rw [← List.countP_eq_length_filter, ← List.countP_eq_length_filter]
      exact ((List.mergeSort_perm _ featureRecLE).countP_eq _).symm
    exact (List.Sublist.eq_of_length hsub3 hlen).symm

/-- A one-row table for the C6 witness. -/
def dfFeatureOne : DataFrame :=
  ⟨1, [("time", [.num 1]), ("event", [.num 1]), ("f1", [.num 2])], by decide⟩

/-- Witness for C6 at a concrete table with one feature column. -/
theorem feature_correlations_sorted_witness :
    (["f1"] : List String) ≠ [] ∧
    dfFeatureOne.getCol "time" ≠ none ∧
    (List.Pairwise (fun a b => featureRecLE a b = true)
        (_compute_feature_statistics dfFeatureOne ["f1"] (some "time") [1] none) ∧
      (_compute_feature_statistics dfFeatureOne ["f1"] (some "time") [1] none).filter
          (fun r => r.abs_correlation.isNone)
        = (_feature_records dfFeatureOne ["f1"] [1] none).filter
            (fun r => r.abs_correlation.isNone)) :=
  ⟨by decide, by decide,
   feature_correlations_sorted dfFeatureOne ["f1"] "time" [1] none
     (by decide) (by decide)⟩

/-! ### Claim C7: a fresh cached row is returned unchanged, with no write -/

/-- C7: when a statistics row exists with the current schema version and
recomputation is not forced, the call returns the cached row and leaves the
stored row untouched (no recomputation result is ever written), whatever the
storage contains — in particular when the file has been deleted. -/
theorem ensure_dataset_statistics_cached_fresh
    (storage : Storage) (dataset : Dataset) (row : DatasetStatisticsRow)
    (dataframe : Option DataFrame) (include_dataframe : Bool)
    (h : row.schema_version = DATASET_STATS_SCHEMA_VERSION) :
    (ensure_dataset_statistics storage dataset (some row) false dataframe
        include_dataframe).1.stats = row ∧
    (ensure_dataset_statistics storage dataset (some row) false dataframe
        include_dataframe).2 = some row := by
  simp [ensure_dataset_statistics, h]

/-- Witness for C7: a dataset whose file is absent from storage, a cached row
with the current schema version, no force flag. -/
theorem ensure_dataset_statistics_cached_fresh_witness :
    (DatasetStatisticsRow.mk (emptyGeneralStats "day") [] []
        DATASET_STATS_SCHEMA_VERSION).schema_version = DATASET_STATS_SCHEMA_VERSION ∧
    ((ensure_dataset_statistics (fun _ => none) ⟨1, some "a.csv", "day"⟩
        (some ⟨emptyGeneralStats "day", [], [], DATASET_STATS_SCHEMA_VERSION⟩)
        false none false).1.stats
      = ⟨emptyGeneralStats "day", [], [], DATASET_STATS_SCHEMA_VERSION⟩ ∧
     (ensure_dataset_statistics (fun _ => none) ⟨1, some "a.csv", "day"⟩
        (some ⟨emptyGeneralStats "day", [], [], DATASET_STATS_SCHEMA_VERSION⟩)
        false none false).2
      = some ⟨emptyGeneralStats "day", [], [], DATASET_STATS_SCHEMA_VERSION⟩) :=
  ⟨rfl, ensure_dataset_statistics_cached_fresh (fun _ => none)
    ⟨1, some "a.csv", "day"⟩ ⟨emptyGeneralStats "day", [], [], DATASET_STATS_SCHEMA_VERSION⟩
    none false rfl⟩

/-! ### Claim C8: empty or unavailable input yields a well-formed null record -/

/-- C8: when the dataset has no file, the file is missing or unreadable (the
loader yields nothing), or the loaded frame is empty, the computation is
total — no exception path exists in the model — and persists a record with
zero samples and features, all time statistics null, and empty correlation
and histogram lists. -/
theorem calculate_and_store_empty_input
    (storage : Storage) (dataset : Dataset) (dbRow : Option DatasetStatisticsRow)
    (h : ∀ d, _read_dataset_into_dataframe storage dataset = some d → d.empty = true) :
    (calculate_and_store_dataset_statistics storage dataset dbRow none).2
      = some (calculate_and_store_dataset_statistics storage dataset dbRow none).1.stats ∧
    (calculate_and_store_dataset_statistics storage dataset dbRow
        none).1.stats.general_stats.num_samples = 0 ∧
    (calculate_and_store_dataset_statistics storage dataset dbRow
        none).1.stats.general_stats.num_features = 0 ∧
    (calculate_and_store_dataset_statistics storage dataset dbRow
        none).1.stats.general_stats.time_min = none ∧
    (calculate_and_store_dataset_statistics storage dataset dbRow
        none).1.stats.general_stats.time_max = none ∧
    (calculate_and_store_dataset_statistics storage dataset dbRow
        none).1.stats.general_stats.time_mean = none ∧
    (calculate_and_store_dataset_statistics storage dataset dbRow
        none).1.stats.general_stats.time_median = none ∧
    (calculate_and_store_dataset_statistics storage dataset dbRow
        none).1.stats.feature_correlations = [] ∧
    (calculate_and_store_dataset_statistics storage dataset dbRow
        none).1.stats.event_time_histogram = [] := by
  cases hr : _read_dataset_into_dataframe storage dataset with
  | none => simp [calculate_and_store_dataset_statistics, hr, emptyGeneralStats]
  | some d =>
      have hd := h d hr
      simp [calculate_and_store_dataset_statistics, hr, hd, emptyGeneralStats]

/-- Witness for C8: a dataset with no associated file. -/
theorem calculate_and_store_empty_input_witness :
    (∀ d, _read_dataset_into_dataframe (fun _ => none) ⟨1, none, "day"⟩ = some d →
        d.empty = true) ∧
    (calculate_and_store_dataset_statistics (fun _ => none) ⟨1, none, "day"⟩ none
        none).1.stats.general_stats.num_samples = 0 :=
  ⟨fun _ hd => absurd hd (by simp [_read_dataset_into_dataframe]),
   (calculate_and_store_empty_input (fun _ => none) ⟨1, none, "day"⟩ none
      (fun _ hd => absurd hd (by simp [_read_dataset_into_dataframe]))).2.1⟩

end ISD
